import Mathlib

/-!
Verification of the twin-hands / poker-grid scoring core.

This file shallowly embeds the parts of the repository that the claims
concern:

* `src/src/utils/poker_evaluator.py` (Twin Hands 1-5 card classifier) and
  `src/poker-grid/src/utils/poker_evaluator.py` (poker-grid 5-card
  classifier), together with the chip tables from
  `src/src/resources/game_config_resource.py` and
  `src/src/resources/twin_hands_config_resource.py`;
* `src/src/resources/joker_resource.py` and
  `src/poker-grid/src/managers/joker_manager.py` (the modifier pipeline);
* `src/src/managers/score_manager.py` (per-line scoring, top-K selection
  and rank labelling);
* `src/ai_simulation/utils/ai_evaluator.py` (Monte Carlo expected-score
  estimator) and
  `src/poker-grid/ai_simulation/agents/normal_ai_manager.py`
  (the deterministic heuristic shop agent).

Modelling conventions:

* Python runtime exceptions (KeyError on an unknown rank or hand type,
  ZeroDivisionError, ValueError/IndexError while parsing a packed
  "NcMm" bonus string, TypeError on arithmetic with a string-valued
  bonus) are modelled as `none` of an `Option` result.
* Python floats that hold chip/mult bonus values are modelled as
  rationals; Python's `int(x)` truncation toward zero is `pyInt`.
* Mutation of a `JokerResource` (`grow`) is modelled by explicit state
  passing; for the Monte Carlo evaluator the heap of joker objects is
  modelled as a list-indexed store so that the duplication discipline of
  `estimate_expected_score` is visible (see `estimateExpectedScore`).
-/

namespace TwinHands

/-- A playing card (`card_resource.py`): a rank string ("2".."9", "T",
"J", "Q", "K", "A") and a suit string ("H", "D", "C", "S"). -/
structure Card where
  rank : String
  suit : String
deriving DecidableEq, Repr

/-- `GameConfigResource.RANK_VALUES` (`game_config_resource.py`). -/
def RANK_VALUES : List (String × Int) :=
  [("2", 2), ("3", 3), ("4", 4), ("5", 5), ("6", 6), ("7", 7), ("8", 8), ("9", 9),
   ("T", 10), ("J", 11), ("Q", 12), ("K", 13), ("A", 14)]

/-- Rank lookup; `none` models Python's KeyError on an unknown rank. -/
def rankValue? (r : String) : Option Int :=
  RANK_VALUES.lookup r

/-- Rank value with a junk default; only used after a whole-hand
validity check has ruled the default out (Python computes all sort keys
up front, raising KeyError if any rank is unknown). -/
def rankValueD (c : Card) : Int :=
  (rankValue? c.rank).getD 0

/-- `GameConfigResource.HAND_SCORES`: flat chip values of the poker-grid
scoring system (`game_config_resource.py`). -/
def HAND_SCORES : List (String × Int) :=
  [("Five of a Kind", 160), ("Royal Flush", 150), ("Straight Flush", 110),
   ("Four of a Kind", 90), ("Full House", 70), ("Flush", 55), ("Straight", 45),
   ("Three of a Kind", 30), ("Two Pair", 20), ("One Pair", 10), ("High Card", 3)]

/-- `TwinHandsConfig.HAND_SCORES` (`twin_hands_config_resource.py`).
Note this table has no "Five of a Kind" and no "Full House" entry. -/
def TWIN_HAND_SCORES : List (String × Int) :=
  [("Royal Flush", 60), ("Straight Flush", 50), ("Four of a Kind", 30),
   ("Flush", 20), ("Straight", 18), ("Three of a Kind", 15), ("Two Pair", 10),
   ("Pair", 6), ("High Card", 3)]

/-- All cards have a rank present in `RANK_VALUES`; Python raises
KeyError while sorting otherwise. -/
def ranksValid (cards : List Card) : Bool :=
  cards.all (fun c => (rankValue? c.rank).isSome)

/-- Comparison used to sort a hand by rank value descending
(`sorted(cards, key=..., reverse=True)`); Python's sort is stable. -/
def rankGe (a b : Card) : Prop :=
  rankValueD b ≤ rankValueD a

instance : DecidableRel rankGe := fun a b =>
  inferInstanceAs (Decidable (rankValueD b ≤ rankValueD a))

/-- `sorted(cards, key=lambda c: c.get_rank_value(), reverse=True)`. -/
def sortByRankDesc (cards : List Card) : List Card :=
  cards.insertionSort rankGe

/-- The distinct ranks of a hand, in first-occurrence order
(the keys of `collections.Counter`). -/
def distinctRanks (cards : List Card) : List String :=
  (cards.map (·.rank)).dedup

/-- Number of cards of rank `r` (one value of `Counter`). -/
def countRank (cards : List Card) (r : String) : Nat :=
  (cards.filter (fun c => c.rank == r)).length

/-- The multiset of `Counter` values (count per distinct rank). -/
def rankCountValues (cards : List Card) : List Nat :=
  (distinctRanks cards).map (countRank cards)

/-- `_is_flush`: all cards share one suit. -/
def isFlush (cards : List Card) : Bool :=
  (cards.map (·.suit)).dedup.length == 1

/-- `_is_straight`: the ascending rank values are a run of 5, or the
wheel A-2-3-4-5. Only invoked on 5-card hands. -/
def isStraight (cards : List Card) : Bool :=
  let vs := (cards.map rankValueD).insertionSort (· ≤ ·)
  match vs with
  | v0 :: _ => vs == [v0, v0 + 1, v0 + 2, v0 + 3, v0 + 4] || vs == [2, 3, 4, 5, 14]
  | [] => false

/-- `_is_royal_flush`: a flush whose rank set is exactly
\x7bT, J, Q, K, A\x7d. -/
def isRoyalFlush (cards : List Card) : Bool :=
  isFlush cards &&
    (["T", "J", "Q", "K", "A"].all (fun r => (cards.map (·.rank)).contains r) &&
     (cards.map (·.rank)).all (fun r => ["T", "J", "Q", "K", "A"].contains r))

/-- `_is_straight_flush`: flush and straight, but not royal. -/
def isStraightFlush (cards : List Card) : Bool :=
  !isRoyalFlush cards && (isFlush cards && isStraight cards)

/-- `_is_five_of_a_kind`: some rank occurs five times. -/
def isFiveOfAKind (cards : List Card) : Bool :=
  (rankCountValues cards).contains 5

/-- `_is_four_of_a_kind`: some rank occurs four times. -/
def isFourOfAKind (cards : List Card) : Bool :=
  (rankCountValues cards).contains 4

/-- `_is_full_house`: the sorted count values are `[2, 3]`. -/
def isFullHouse (cards : List Card) : Bool :=
  (rankCountValues cards).insertionSort (· ≤ ·) == [2, 3]

/-- `_is_three_of_a_kind`: a triple that is not a full house. -/
def isThreeOfAKind (cards : List Card) : Bool :=
  (rankCountValues cards).contains 3 && !isFullHouse cards

/-- `_is_two_pair`: exactly two distinct ranks occur twice. -/
def isTwoPair (cards : List Card) : Bool :=
  ((rankCountValues cards).filter (· == 2)).length == 2

/-- `_is_one_pair`: a pair that is not two pair. -/
def isOnePair (cards : List Card) : Bool :=
  (rankCountValues cards).contains 2 && !isTwoPair cards

/-- A scored hand as built by the poker-grid evaluator
(`poker-grid/src/resources/hand_resource.py`): flat chips, integer
mult starting at 1. -/
structure Hand where
  cards : List Card
  hand_type : String
  chips : Int
  mult : Int
deriving DecidableEq, Repr

/-- The poker-grid classification chain for a 5-card hand, best to
worst, first match wins (`poker-grid/src/utils/poker_evaluator.py`). -/
def classifyPG (sc : List Card) : String :=
  if isFiveOfAKind sc then "Five of a Kind"
  else if isRoyalFlush sc then "Royal Flush"
  else if isStraightFlush sc then "Straight Flush"
  else if isFourOfAKind sc then "Four of a Kind"
  else if isFullHouse sc then "Full House"
  else if isFlush sc then "Flush"
  else if isStraight sc then "Straight"
  else if isThreeOfAKind sc then "Three of a Kind"
  else if isTwoPair sc then "Two Pair"
  else if isOnePair sc then "One Pair"
  else "High Card"

/-- `PokerEvaluator.evaluate_hand` of the poker-grid project: a hand of
size other than 5 is Invalid with 0 chips; otherwise the hand is sorted
by rank descending, classified, and its flat chips looked up in
`HAND_SCORES`. `none` models a KeyError on an unknown rank. -/
def evaluateHandPG (cards : List Card) : Option Hand :=
  if cards.length ≠ 5 then some ⟨cards, "Invalid", 0, 1⟩
  else if !ranksValid cards then none
  else
    let sc := sortByRankDesc cards
    let ht := classifyPG sc
    (HAND_SCORES.lookup ht).map (fun chips => ⟨sc, ht, chips, 1⟩)

/-- A Twin Hands scored hand (`src/src/resources/hand_resource.py`):
`base_score` chips and a float `mult` starting at 1.0. -/
structure HandTH where
  cards : List Card
  hand_type : String
  base_score : Int
  mult : ℚ
deriving DecidableEq, Repr

/-- The Twin Hands classification for a 5-card hand
(`src/src/utils/poker_evaluator.py`, `num_cards == 5` branch). -/
def classifyTH5 (sc : List Card) : String :=
  if isRoyalFlush sc then "Royal Flush"
  else if isStraightFlush sc then "Straight Flush"
  else if isFourOfAKind sc then "Four of a Kind"
  else if isFlush sc then "Flush"
  else if isStraight sc then "Straight"
  else if isFullHouse sc then "Full House"
  else if isThreeOfAKind sc then "Three of a Kind"
  else if isTwoPair sc then "Two Pair"
  else if isOnePair sc then "Pair"
  else "High Card"

/-- The Twin Hands classification for a 4-card hand (no flush or
straight: those require exactly 5 cards). -/
def classifyTH4 (sc : List Card) : String :=
  if isFourOfAKind sc then "Four of a Kind"
  else if isThreeOfAKind sc then "Three of a Kind"
  else if isTwoPair sc then "Two Pair"
  else if isOnePair sc then "Pair"
  else "High Card"

/-- The Twin Hands classification for a 3-card hand. -/
def classifyTH3 (sc : List Card) : String :=
  if isThreeOfAKind sc then "Three of a Kind"
  else if isOnePair sc then "Pair"
  else "High Card"

/-- The Twin Hands classification for a 2-card hand. -/
def classifyTH2 (sc : List Card) : String :=
  if isOnePair sc then "Pair"
  else "High Card"

/-- `PokerEvaluator.evaluate_hand` of the Twin Hands variant
(`src/src/utils/poker_evaluator.py`): hands of fewer than 1 or more
than 5 cards are Invalid with `base_score = 0`; otherwise the hand is
sorted and classified by size, and its base score looked up in
`TWIN_HAND_SCORES`. `none` models a KeyError (unknown rank while
sorting, or a classified type absent from the Twin Hands table). -/
def evaluateHandTH (cards : List Card) : Option HandTH :=
  if cards.length < 1 ∨ cards.length > 5 then some ⟨cards, "Invalid", 0, 1⟩
  else if !ranksValid cards then none
  else
    let sc := sortByRankDesc cards
    let n := cards.length
    let ht :=
      if n = 5 then classifyTH5 sc
      else if n = 4 then classifyTH4 sc
      else if n = 3 then classifyTH3 sc
      else if n = 2 then classifyTH2 sc
      else "High Card"
    (TWIN_HAND_SCORES.lookup ht).map (fun s => ⟨sc, ht, s, 1⟩)

/-- Python `int(x)` on a float: truncation toward zero. -/
def pyInt (q : ℚ) : Int :=
  Int.tdiv q.num (q.den : Int)

/-- `JokerResource.bonus_value`: either a number (Python float) or a
packed string such as "20c4m" (`joker_resource.py`). -/
inductive BonusValue where
  | num (q : ℚ)
  | str (s : String)
deriving DecidableEq, Repr

/-- `JokerResource.per_card`: a boolean, or the sentinel string
"first_only" (`joker_resource.py`, design note in the spec). -/
inductive PerCard where
  | bool (b : Bool)
  | str (s : String)
deriving DecidableEq, Repr

/-- Python truthiness of the `per_card` field: `True`, or a non-empty
string. -/
def PerCard.truthy : PerCard → Bool
  | .bool b => b
  | .str s => s ≠ ""

/-- A joker/modifier (`src/src/resources/joker_resource.py`). Display
metadata (name, notes, sell value) is omitted; all fields read by the
pipeline and the agents are present. -/
structure Joker where
  id : String
  rarity : String
  cost : Int
  effect_type : String
  trigger : String
  condition_type : String
  condition_value : String
  bonus_type : String
  bonus_value : BonusValue
  per_card : PerCard
  grow_per : Option String
  current_bonus : ℚ
deriving DecidableEq, Repr

/-- `JokerResource.get_effective_bonus`: the accumulated bonus for a
growing joker, the nominal value otherwise. -/
def Joker.getEffectiveBonus (j : Joker) : BonusValue :=
  if j.effect_type = "growing" then .num j.current_bonus else j.bonus_value

/-- `JokerResource.grow()` with no explicit amount: a growing joker adds
its nominal `bonus_value` to `current_bonus`; other jokers are
unchanged. `none` models the TypeError of adding a packed string. -/
def Joker.grow (j : Joker) : Option Joker :=
  if j.effect_type = "growing" then
    match j.bonus_value with
    | .num q => some { j with current_bonus := j.current_bonus + q }
    | .str _ => none
  else some j

/-- `JokerManager._check_condition`
(`poker-grid/src/managers/joker_manager.py`): decides whether a joker
triggers for the given hand type and line cards. Unknown condition
encodings fall through to `false`. -/
def checkCondition (j : Joker) (handType : String) (cards : List Card) : Bool :=
  if j.trigger == "always" then true
  else if j.condition_type == "" then true
  else if j.condition_type == "hand_type" then handType == j.condition_value
  else if j.condition_type == "suit" then cards.any (fun c => c.suit == j.condition_value)
  else if j.condition_type == "rank" then
    let ranks := j.condition_value.splitOn "|"
    cards.any (fun c => ranks.contains c.rank)
  else if j.condition_type == "card_type" then
    if j.condition_value == "face" then cards.any (fun c => ["J", "Q", "K"].contains c.rank)
    else false
  else if j.condition_type == "rank_parity" then
    if j.condition_value == "even" then cards.any (fun c => ["2", "4", "6", "8", "T"].contains c.rank)
    else if j.condition_value == "odd" then cards.any (fun c => ["3", "5", "7", "9", "A"].contains c.rank)
    else false
  else if j.condition_type == "card_position" then
    if j.condition_value == "first_face" then cards.any (fun c => ["J", "Q", "K"].contains c.rank)
    else false
  else false

/-- `JokerManager._count_matching_cards`: how many cards of the line
match the joker's condition; any condition type other than suit, rank,
card_type(face) or rank_parity(even/odd) counts 0. -/
def countMatchingCards (j : Joker) (cards : List Card) : Nat :=
  if j.condition_type == "suit" then
    (cards.filter (fun c => c.suit == j.condition_value)).length
  else if j.condition_type == "rank" then
    let ranks := j.condition_value.splitOn "|"
    (cards.filter (fun c => ranks.contains c.rank)).length
  else if j.condition_type == "card_type" then
    if j.condition_value == "face" then
      (cards.filter (fun c => ["J", "Q", "K"].contains c.rank)).length
    else 0
  else if j.condition_type == "rank_parity" then
    if j.condition_value == "even" then
      (cards.filter (fun c => ["2", "4", "6", "8", "T"].contains c.rank)).length
    else if j.condition_value == "odd" then
      (cards.filter (fun c => ["3", "5", "7", "9", "A"].contains c.rank)).length
    else 0
  else 0

/-- Python's `str.split("c")` for the single-character separator used
by packed "NcMm" bonus strings, on the character list. -/
def splitOnC : List Char → List (List Char)
  | [] => [[]]
  | ch :: rest =>
    match splitOnC rest with
    | r :: rs => if ch = 'c' then [] :: r :: rs else (ch :: r) :: rs
    | [] => [[ch]]

/-- Python's `str.replace("m", "")`: drop every 'm'. -/
def dropM (cs : List Char) : List Char :=
  cs.filter (fun c => c ≠ 'm')

/-- Decimal digit run to a number; `none` (Python ValueError) on an
empty string or a non-digit character. -/
def digitsVal (cs : List Char) : Option Nat :=
  if cs = [] then none
  else cs.foldl
    (fun acc c => acc.bind (fun n => if c.isDigit then some (10 * n + (c.toNat - 48)) else none))
    (some 0)

/-- Python `int(...)` on an optionally negated digit string. -/
def pyParseInt (cs : List Char) : Option Int :=
  match cs with
  | '-' :: rest => (digitsVal rest).map (fun n => -(n : Int))
  | _ => (digitsVal cs).map (fun n => (n : Int))

/-- The generic effect dispatch of `JokerManager._apply_effect`: the
per-card branch when `per_card` is truthy (only "+m"/"+c" do anything
there), else the per-line branch ("+m", "+c", "Xm", and the packed "++"
chips-and-mult bonus, both parts scaled by the matching-card count).
`none` models a Python exception: arithmetic on a string-valued bonus,
or a malformed packed bonus (IndexError/ValueError while splitting and
parsing). -/
def applyEffectGeneric (j : Joker) (cards : List Card) (chips mult : Int) :
    Option (Int × Int) :=
  let bv := j.getEffectiveBonus
  if j.per_card.truthy then
    let count : Int := countMatchingCards j cards
    if j.bonus_type == "+m" then
      match bv with
      | .num q => some (chips, mult + pyInt (q * count))
      | .str _ => none
    else if j.bonus_type == "+c" then
      match bv with
      | .num q => some (chips + pyInt (q * count), mult)
      | .str _ => none
    else some (chips, mult)
  else
    if j.bonus_type == "+m" then
      match bv with
      | .num q => some (chips, mult + pyInt q)
      | .str _ => none
    else if j.bonus_type == "+c" then
      match bv with
      | .num q => some (chips + pyInt q, mult)
      | .str _ => none
    else if j.bonus_type == "Xm" then
      match bv with
      | .num q => some (chips, pyInt (mult * q))
      | .str _ => none
    else if j.bonus_type == "++" then
      let count : Int := countMatchingCards j cards
      match j.bonus_value with
      | .str s =>
        match splitOnC s.data with
        | a :: b :: _ =>
          match pyParseInt a, pyParseInt (dropM b) with
          | some ac, some am => some (chips + ac * count, mult + am * count)
          | _, _ => none
        | _ => none
      | .num _ => none
    else some (chips, mult)

/-- The "Photograph" special case at the end of
`JokerManager._apply_effect`: a `card_position`/`first_face` joker
multiplies mult by its effective bonus once if the line holds a face
card, in addition to the generic dispatch. -/
def applyEffectSpecial (j : Joker) (cards : List Card) (cm : Int × Int) :
    Option (Int × Int) :=
  if j.condition_type == "card_position" && j.condition_value == "first_face" then
    if cards.any (fun c => ["J", "Q", "K"].contains c.rank) then
      match j.getEffectiveBonus with
      | .num q => some (cm.1, pyInt (cm.2 * q))
      | .str _ => none
    else some cm
  else some cm

/-- `JokerManager._apply_effect`: generic dispatch followed by the
first-face special case. -/
def applyEffect (j : Joker) (cards : List Card) (chips mult : Int) :
    Option (Int × Int) :=
  (applyEffectGeneric j cards chips mult).bind (applyEffectSpecial j cards)

/-- One iteration of the `apply_joker_effects` loop: skip jokers whose
trigger is neither "always" nor "on_scored"; when the condition holds,
apply the effect and grow a growing per-line joker. Returns the updated
chips, mult and (possibly grown) joker. -/
def applyOne (j : Joker) (handType : String) (cards : List Card)
    (chips mult : Int) : Option (Int × Int × Joker) :=
  if j.trigger ≠ "always" ∧ j.trigger ≠ "on_scored" then some (chips, mult, j)
  else if checkCondition j handType cards then
    match applyEffect j cards chips mult with
    | none => none
    | some (c, m) =>
      if j.effect_type = "growing" ∧ j.grow_per = some "line" then
        (j.grow).map (fun j2 => (c, m, j2))
      else some (c, m, j)
  else some (chips, mult, j)

/-- `JokerManager.apply_joker_effects`: fold `applyOne` over the active
jokers in registration order, threading chips and mult and returning
the updated joker states. -/
def applyJokerEffects (jokers : List Joker) (handType : String)
    (cards : List Card) (chips mult : Int) :
    Option (Int × Int × List Joker) :=
  match jokers with
  | [] => some (chips, mult, [])
  | j :: rest =>
    match applyOne j handType cards chips mult with
    | none => none
    | some (c, m, j2) =>
      match applyJokerEffects rest handType cards c m with
      | none => none
      | some (c2, m2, rest2) => some (c2, m2, j2 :: rest2)

/-- One recorded scoring line of `ScoreManager.score_current_grid`
(`src/src/managers/score_manager.py`): its kind ("row" or "col"),
index, joker-modified score, and the display hand. -/
structure LineRec where
  kind : String
  index : Nat
  score : Int
  hand : Hand
deriving DecidableEq, Repr

/-- The numeric half of `get_priority`: rows sort before columns. -/
def prNum (l : LineRec) : Nat :=
  if l.kind == "row" then 0 else 1

/-- The sort order of `_get_top_lines`: Python sorts ascending by the
key `(-score, (priority, index))`, i.e. score descending, then rows
before columns, then index ascending. -/
def keyLe (a b : LineRec) : Prop :=
  b.score < a.score ∨
    (a.score = b.score ∧ (prNum a < prNum b ∨ (prNum a = prNum b ∧ a.index ≤ b.index)))

instance : DecidableRel keyLe := fun _ _ =>
  inferInstanceAs (Decidable (_ ∨ _))

instance : IsTotal LineRec keyLe :=
  ⟨fun a b => by unfold keyLe; omega⟩

instance : IsTrans LineRec keyLe :=
  ⟨fun a b c hab hbc => by unfold keyLe at *; omega⟩

/-- The line order as the spec words it: score descending, ties broken
by rows before columns and then ascending index. Stated from the spec
sentence, for comparison with the code's `keyLe`. -/
def claimOrd (a b : LineRec) : Prop :=
  b.score < a.score ∨
    (a.score = b.score ∧
      ((a.kind = "row" ∧ b.kind = "col") ∨ (a.kind = b.kind ∧ a.index ≤ b.index)))

/-- The rank label of `_get_top_lines`: 1 if the score equals the first
selected score, 2 if it equals the second selected score, 3 otherwise. -/
def rankOf (scores : List Int) (x : Int) : Int :=
  if scores.get? 0 = some x then 1
  else if scores.get? 1 = some x then 2
  else 3

/-- `ScoreManager._get_top_lines`: stable-sort all recorded lines by
`keyLe`, keep the first `max 0 (min k n)` of them, label each with
`rankOf` over the selected scores, and sum the selected scores. An
empty input yields `([], 0)`. -/
def getTopLines (allLines : List LineRec) (k : Int) : List (LineRec × Int) × Int :=
  if allLines = [] then ([], 0)
  else
    let sorted := allLines.insertionSort keyLe
    let kk := (min k (sorted.length : Int)).toNat
    let topk := sorted.take kk
    if topk = [] then ([], 0)
    else
      let scores := topk.map (·.score)
      (topk.map (fun l => (l, rankOf scores l.score)), scores.sum)

/-- One line of `score_current_grid`: evaluate the 5 cards, run the
joker pipeline, record `score = chips * mult` and the display hand
updated with the joker-modified chips and mult. -/
def scoreLine (jokers : List Joker) (cards : List Card) :
    Option (Int × Hand × List Joker) :=
  match evaluateHandPG cards with
  | none => none
  | some hand =>
    match applyJokerEffects jokers hand.hand_type cards hand.chips hand.mult with
    | none => none
    | some (fc, fm, js) =>
      some (fc * fm, { hand with chips := fc, mult := fm }, js)

/-- The row loop of `score_current_grid`: walk the grid rows with their
indices, score each row whose non-empty cells number exactly 5
(`state.get_row` drops empty cells), threading joker state. -/
def buildRowLines (jokers : List Joker) (grid : List (List (Option Card)))
    (r : Nat) : Option (List LineRec × List Joker) :=
  match grid with
  | [] => some ([], jokers)
  | row :: rest =>
    let cards := row.filterMap id
    if cards.length = 5 then
      match scoreLine jokers cards with
      | none => none
      | some (sc, hand, js) =>
        match buildRowLines js rest (r + 1) with
        | none => none
        | some (ls, js2) => some (⟨"row", r, sc, hand⟩ :: ls, js2)
    else
      match buildRowLines jokers rest (r + 1) with
      | none => none
      | some (ls, js2) => some (ls, js2)

/-- `state.get_col`: the non-empty cells of column `c`, top to bottom. -/
def getColCards (grid : List (List (Option Card))) (c : Nat) : List Card :=
  grid.filterMap (fun row => row.getD c none)

/-- The column loop of `score_current_grid` over the given column
indices. -/
def buildColLines (jokers : List Joker) (grid : List (List (Option Card)))
    (cs : List Nat) : Option (List LineRec × List Joker) :=
  match cs with
  | [] => some ([], jokers)
  | c :: rest =>
    let cards := getColCards grid c
    if cards.length = 5 then
      match scoreLine jokers cards with
      | none => none
      | some (sc, hand, js) =>
        match buildColLines js grid rest with
        | none => none
        | some (ls, js2) => some (⟨"col", c, sc, hand⟩ :: ls, js2)
    else
      match buildColLines jokers grid rest with
      | none => none
      | some (ls, js2) => some (ls, js2)

/-- All scorable lines of the grid, rows first then columns, as
`score_current_grid` records them before ranking. -/
def gridAllLines (grid : List (List (Option Card))) (cols : Nat)
    (jokers : List Joker) : Option (List LineRec) :=
  match buildRowLines jokers grid 0 with
  | none => none
  | some (rls, js) =>
    match buildColLines js grid (List.range cols) with
    | none => none
    | some (cls, _) => some (rls ++ cls)

/-- `ScoreManager.score_current_grid`: score every complete row and
column through the joker pipeline, then keep only the top-K lines
(`config.lines_scored_per_spin`) for the total. Returns
`(total, row_hands, col_hands, top_lines)`. -/
def scoreCurrentGrid (grid : List (List (Option Card))) (cols : Nat)
    (jokers : List Joker) (k : Int) :
    Option (Int × List Hand × List Hand × List (LineRec × Int)) :=
  match buildRowLines jokers grid 0 with
  | none => none
  | some (rls, js) =>
    match buildColLines js grid (List.range cols) with
    | none => none
    | some (cls, _) =>
      let res := getTopLines (rls ++ cls) k
      some (res.2, rls.map (·.hand), cls.map (·.hand), res.1)

/-! ## Monte Carlo evaluator (`src/ai_simulation/utils/ai_evaluator.py`)

The evaluator's per-sample `JokerManager` holds *duplicates* of the
caller's joker objects. To make that aliasing discipline provable, the
heap of live joker objects is modelled as a list-indexed store: the
caller's jokers occupy slots `0..n-1`, `duplicate()` allocates fresh
slots at the end, and a manager is a list of slot indices. -/

/-- `apply_joker_effects` run by a manager whose slots are the store
indices `ids`; mutation of a joker object is `List.set` at its index.
A dangling index models a Python error and aborts. -/
def applyJokerEffectsStore (ids : List Nat) (store : List Joker)
    (handType : String) (cards : List Card) (chips mult : Int) :
    Option (Int × Int) × List Joker :=
  match ids with
  | [] => (some (chips, mult), store)
  | i :: rest =>
    match store.get? i with
    | none => (none, store)
    | some j =>
      match applyOne j handType cards chips mult with
      | none => (none, store)
      | some (c, m, j2) =>
        applyJokerEffectsStore rest (store.set i j2) handType cards c m

/-- Junk card used for an out-of-range index into a temp grid row; the
rows built by `buildTempRow` always have the full width, so it is never
reached for well-formed inputs. -/
def defaultCard : Card := ⟨"", ""⟩

/-- One row of the temporary sample grid: a frozen cell that holds a
card keeps it, every other cell draws the next card from the RNG
stream (`deck.draw_random()`, drawing with replacement). The second
component is the advanced stream position. -/
def buildTempRow (grid : List (List (Option Card))) (frozen : List (Nat × Nat))
    (rng : Nat → Card) (r : Nat) : List Nat → Nat → List Card × Nat
  | [], t => ([], t)
  | c :: rest, t =>
    match (if frozen.contains (r, c) then (grid.getD r []).getD c none else none) with
    | some card =>
      let (cs, t2) := buildTempRow grid frozen rng r rest t
      (card :: cs, t2)
    | none =>
      let (cs, t2) := buildTempRow grid frozen rng r rest (t + 1)
      (rng t :: cs, t2)

/-- The temporary grid of one Monte Carlo sample, row by row. -/
def buildTempGrid (grid : List (List (Option Card))) (frozen : List (Nat × Nat))
    (rng : Nat → Card) (cols : Nat) : List Nat → Nat → List (List Card) × Nat
  | [], t => ([], t)
  | r :: rest, t =>
    let (row, t2) := buildTempRow grid frozen rng r (List.range cols) t
    let (rows2, t3) := buildTempGrid grid frozen rng cols rest t2
    (row :: rows2, t3)

/-- Score the sample lines in order (all rows, then all columns),
threading the joker store; a Python exception in any line aborts the
sample. Every temp cell holds a card, so the source's `all(line)`
completeness test is always true. -/
def scoreSampleLines (lines : List (List Card)) (ids : List Nat)
    (store : List Joker) : Option (List Int) × List Joker :=
  match lines with
  | [] => (some [], store)
  | line :: rest =>
    match evaluateHandPG line with
    | none => (none, store)
    | some hand =>
      match applyJokerEffectsStore ids store hand.hand_type line hand.chips hand.mult with
      | (none, st) => (none, st)
      | (some (c, m), st) =>
        match scoreSampleLines rest ids st with
        | (none, st2) => (none, st2)
        | (some scs, st2) => (some (c * m :: scs), st2)

/-- One Monte Carlo sample: build a fresh manager holding duplicates of
the caller's jokers (slots `0..n-1` of the store; the duplicates are
appended, so their indices start at the current store length), build
the temporary grid, score all rows and columns through the duplicated
jokers, and sum the top `k` line scores (`line_scores.sort(reverse=True)`
then `sum(line_scores[:k])`). With no active jokers (`n = 0`) the
manager is absent and lines are scored bare, which the empty id list
models. -/
def sampleOnce (grid : List (List (Option Card))) (frozen : List (Nat × Nat))
    (rows cols k n : Nat) (store : List Joker) (rng : Nat → Card) (t : Nat) :
    Option Int × List Joker × Nat :=
  let dups := store.take n
  let ids := List.range' store.length n
  let store1 := store ++ dups
  let (temp, t2) := buildTempGrid grid frozen rng cols (List.range rows) t
  let rowLines := (List.range rows).map (fun r => temp.getD r [])
  let colLines := (List.range cols).map (fun c => temp.map (fun row => row.getD c defaultCard))
  match scoreSampleLines (rowLines ++ colLines) ids store1 with
  | (none, st) => (none, st, t2)
  | (some scs, st) =>
    let sortedScs := scs.insertionSort (fun a b : Int => b ≤ a)
    (some (sortedScs.take k).sum, st, t2)

/-- The sampling loop of `estimate_expected_score`, accumulating
`chips_sum`. -/
def estimateLoop (grid : List (List (Option Card))) (frozen : List (Nat × Nat))
    (rows cols k n : Nat) (rng : Nat → Card) :
    Nat → List Joker → Nat → ℚ → Option ℚ × List Joker
  | 0, store, _, acc => (some acc, store)
  | s + 1, store, t, acc =>
    match sampleOnce grid frozen rows cols k n store rng t with
    | (none, st, _) => (none, st)
    | (some sc, st, t2) => estimateLoop grid frozen rows cols k n rng s st t2 (acc + (sc : ℚ))

/-- `AIEvaluator.estimate_expected_score`: run `samples` Monte Carlo
samples and return `chips_sum / float(samples)`. The store is returned
so the fate of the caller's joker objects (slots `0..jokers.length-1`)
is observable. The final division has no guard: `samples = 0` is a
ZeroDivisionError, modelled as `none`. -/
def estimateExpectedScore (grid : List (List (Option Card)))
    (frozen : List (Nat × Nat)) (rows cols k : Nat) (jokers : List Joker)
    (samples : Nat) (rng : Nat → Card) : Option ℚ × List Joker :=
  match estimateLoop grid frozen rows cols k jokers.length rng samples jokers 0 0 with
  | (none, st) => (none, st)
  | (some total, st) =>
    (if samples = 0 then none else some (total / (samples : ℚ)), st)

/-! ## Heuristic shop agent
(`src/poker-grid/ai_simulation/agents/normal_ai_manager.py`) -/

/-- One entry of the `shop_display` list: an optional joker and the
shop index recorded in the display dict. -/
structure ShopItem where
  joker : Option Joker
  index : Int
deriving DecidableEq, Repr

/-- Whether the agent would buy this item: it holds a joker whose bonus
is a simple "+m" or "+c" and whose cost the player can afford
(`state.can_afford`, i.e. `money >= cost`). -/
def buyable (money : Int) (it : ShopItem) : Bool :=
  match it.joker with
  | some j => (j.bonus_type == "+m" || j.bonus_type == "+c") && decide (j.cost ≤ money)
  | none => false

/-- `NormalAIManager.recommend_shop_action`: with no joker manager, do
nothing; with a free slot, buy the first affordable simple "+m"/"+c"
item; otherwise reroll if affordable; otherwise do nothing. Pure and
deterministic: no randomness, no simulation. -/
def recommendShopAction (hasManager : Bool) (jokerCount maxSlots : Nat)
    (money : Int) (shop : List ShopItem) (rerollCost : Int) : String × Int :=
  if !hasManager then ("none", -1)
  else
    let buy := if jokerCount < maxSlots then shop.find? (buyable money) else none
    match buy with
    | some it => ("buy", it.index)
    | none => if rerollCost ≤ money then ("reroll", -1) else ("none", -1)

/-! ## Shared helper lemmas -/

theorem pyInt_intCast (n : Int) : pyInt (n : ℚ) = n := by
  unfold pyInt
  rw [Rat.num_intCast, Rat.den_intCast]
  cases n <;> simp [Int.tdiv, Int.negSucc_eq]

theorem sortByRankDesc_perm (cards : List Card) :
    (sortByRankDesc cards).Perm cards :=
  List.perm_insertionSort _ _

theorem countRank_sortByRankDesc (cards : List Card) (r : String) :
    countRank (sortByRankDesc cards) r = countRank cards r := by
  unfold countRank
  exact ((sortByRankDesc_perm cards).filter _).length_eq

theorem isFiveOfAKind_of_all_same (cards : List Card) (r : String)
    (hne : cards ≠ []) (hlen : cards.length = 5)
    (hall : ∀ c ∈ cards, c.rank = r) : isFiveOfAKind cards = true := by
  unfold isFiveOfAKind rankCountValues
  have hmem : r ∈ distinctRanks cards := by
    unfold distinctRanks
    rw [List.mem_dedup]
    rcases cards with _ | ⟨c, cs⟩
    · simp at hne
    · exact List.mem_map.2 ⟨c, List.mem_cons_self _ _, hall c (List.mem_cons_self _ _)⟩
  have hcount : countRank cards r = 5 := by
    unfold countRank
    have : cards.filter (fun c => c.rank == r) = cards := by
      apply List.filter_eq_self.2
      intro c hc
      simp [hall c hc]
    rw [this, hlen]
  have h5 : (5 : Nat) ∈ (distinctRanks cards).map (countRank cards) :=
    List.mem_map.2 ⟨r, hmem, hcount⟩
  simpa [List.contains, List.elem_iff] using h5

/-! ## C3: zero-sample Monte Carlo request -/

/-- Claim C3 (code_bug evidence): `estimate_expected_score` has no
guard on `samples == 0` — the final `chips_sum / float(samples)` is a
ZeroDivisionError (modelled as `none`), not a returned 0.0. The
caller's jokers are untouched since the sampling loop never runs. -/
theorem estimate_zero_samples_raises :
    ∀ (grid : List (List (Option Card))) (frozen : List (Nat × Nat))
      (rows cols k : Nat) (jokers : List Joker) (rng : Nat → Card),
      estimateExpectedScore grid frozen rows cols k jokers 0 rng = (none, jokers) := by
  intro grid frozen rows cols k jokers rng
  rfl

/-! ## C5: five identical ranks classify as Five of a Kind -/

/-- Claim C5: any 5-card input whose cards all share one (valid) rank —
any suits, duplicates allowed — is classified "Five of a Kind" by the
poker-grid evaluator; the five-of-a-kind test is the first branch of
the classification chain, so it wins over every other category. -/
theorem five_of_a_kind_first (cards : List Card) (r : String)
    (hlen : cards.length = 5) (hall : ∀ c ∈ cards, c.rank = r)
    (hr : (rankValue? r).isSome) :
    evaluateHandPG cards =
      some ⟨sortByRankDesc cards, "Five of a Kind", 160, 1⟩ := by
  have hne : cards ≠ [] := by
    intro h
    rw [h] at hlen
    simp at hlen
  have hvalid : ranksValid cards = true := by
    unfold ranksValid
    rw [List.all_eq_true]
    intro c hc
    rw [hall c hc]
    simpa using hr
  have hsc_len : (sortByRankDesc cards).length = 5 := by
    rw [(sortByRankDesc_perm cards).length_eq, hlen]
  have hsc_ne : sortByRankDesc cards ≠ [] := by
    intro h
    rw [h] at hsc_len
    simp at hsc_len
  have hsc_all : ∀ c ∈ sortByRankDesc cards, c.rank = r := by
    intro c hc
    exact hall c ((sortByRankDesc_perm cards).mem_iff.1 hc)
  have hfive : isFiveOfAKind (sortByRankDesc cards) = true :=
    isFiveOfAKind_of_all_same _ r hsc_ne hsc_len hsc_all
  unfold evaluateHandPG
  rw [if_neg (by omega), if_neg (by simp [hvalid])]
  simp only [classifyPG, hfive, if_true]
  rfl

/-- Witness for C5: five aces of mixed suits (with a duplicated card)
evaluate to Five of a Kind. -/
theorem five_of_a_kind_first_witness :
    evaluateHandPG [⟨"A", "H"⟩, ⟨"A", "S"⟩, ⟨"A", "H"⟩, ⟨"A", "D"⟩, ⟨"A", "C"⟩] =
      some ⟨sortByRankDesc [⟨"A", "H"⟩, ⟨"A", "S"⟩, ⟨"A", "H"⟩, ⟨"A", "D"⟩, ⟨"A", "C"⟩],
        "Five of a Kind", 160, 1⟩ :=
  five_of_a_kind_first _ "A" (by decide) (by decide) (by decide)

/-! ## C4: 2-4 card hands resolve to kicker-style categories -/

/-- The kicker-style categories reachable for short Twin Hands hands. -/
def kickerCategories : List String :=
  ["Pair", "Two Pair", "Three of a Kind", "Four of a Kind", "High Card"]

theorem classifyTH4_mem (sc : List Card) : classifyTH4 sc ∈ kickerCategories := by
  unfold classifyTH4 kickerCategories
  split_ifs <;> simp

theorem classifyTH3_mem (sc : List Card) : classifyTH3 sc ∈ kickerCategories := by
  unfold classifyTH3 kickerCategories
  split_ifs <;> simp

theorem classifyTH2_mem (sc : List Card) : classifyTH2 sc ∈ kickerCategories := by
  unfold classifyTH2 kickerCategories
  split_ifs <;> simp

theorem twin_lookup_kicker (ht : String) (h : ht ∈ kickerCategories) :
    ∃ s : Int, TWIN_HAND_SCORES.lookup ht = some s := by
  fin_cases h
  · exact ⟨6, rfl⟩
  · exact ⟨10, rfl⟩
  · exact ⟨15, rfl⟩
  · exact ⟨30, rfl⟩
  · exact ⟨3, rfl⟩

theorem evaluateHandTH_len2 (cards : List Card) (hvalid : ranksValid cards = true)
    (hn : cards.length = 2) :
    evaluateHandTH cards = (TWIN_HAND_SCORES.lookup (classifyTH2 (sortByRankDesc cards))).map
      (fun s => ⟨sortByRankDesc cards, classifyTH2 (sortByRankDesc cards), s, 1⟩) := by
  unfold evaluateHandTH
  rw [if_neg (by omega), if_neg (by simp [hvalid])]
  simp only [hn]
  norm_num

theorem evaluateHandTH_len3 (cards : List Card) (hvalid : ranksValid cards = true)
    (hn : cards.length = 3) :
    evaluateHandTH cards = (TWIN_HAND_SCORES.lookup (classifyTH3 (sortByRankDesc cards))).map
      (fun s => ⟨sortByRankDesc cards, classifyTH3 (sortByRankDesc cards), s, 1⟩) := by
  unfold evaluateHandTH
  rw [if_neg (by omega), if_neg (by simp [hvalid])]
  simp only [hn]
  norm_num

theorem evaluateHandTH_len4 (cards : List Card) (hvalid : ranksValid cards = true)
    (hn : cards.length = 4) :
    evaluateHandTH cards = (TWIN_HAND_SCORES.lookup (classifyTH4 (sortByRankDesc cards))).map
      (fun s => ⟨sortByRankDesc cards, classifyTH4 (sortByRankDesc cards), s, 1⟩) := by
  unfold evaluateHandTH
  rw [if_neg (by omega), if_neg (by simp [hvalid])]
  simp only [hn]
  norm_num

theorem kicker_ne_invalid (ht : String) (h : ht ∈ kickerCategories) : ht ≠ "Invalid" := by
  fin_cases h <;> decide

/-- Claim C4: a Twin Hands hand of 2, 3 or 4 cards always resolves to a
kicker-style category (Pair, Two Pair, Three of a Kind, Four of a Kind
or High Card) — never a flush/straight category and never Invalid —
while an input of fewer than 1 or more than 5 cards yields exactly
`Invalid` with 0 base chips, without raising. -/
theorem short_hands_are_kicker_categories (cards : List Card) :
    (2 ≤ cards.length → cards.length ≤ 4 → ranksValid cards = true →
      ∃ h, evaluateHandTH cards = some h ∧
        h.hand_type ∈ kickerCategories ∧ h.hand_type ≠ "Invalid") ∧
    (cards.length < 1 ∨ cards.length > 5 →
      evaluateHandTH cards = some ⟨cards, "Invalid", 0, 1⟩) := by
  constructor
  · intro h2 h4 hvalid
    have hsz : cards.length = 2 ∨ cards.length = 3 ∨ cards.length = 4 := by omega
    rcases hsz with hn | hn | hn
    · obtain ⟨s, hs⟩ := twin_lookup_kicker _ (classifyTH2_mem (sortByRankDesc cards))
      refine ⟨⟨sortByRankDesc cards, classifyTH2 (sortByRankDesc cards), s, 1⟩, ?_, ?_, ?_⟩
      · rw [evaluateHandTH_len2 cards hvalid hn, hs]
        rfl
      · exact classifyTH2_mem _
      · exact kicker_ne_invalid _ (classifyTH2_mem _)
    · obtain ⟨s, hs⟩ := twin_lookup_kicker _ (classifyTH3_mem (sortByRankDesc cards))
      refine ⟨⟨sortByRankDesc cards, classifyTH3 (sortByRankDesc cards), s, 1⟩, ?_, ?_, ?_⟩
      · rw [evaluateHandTH_len3 cards hvalid hn, hs]
        rfl
      · exact classifyTH3_mem _
      · exact kicker_ne_invalid _ (classifyTH3_mem _)
    · obtain ⟨s, hs⟩ := twin_lookup_kicker _ (classifyTH4_mem (sortByRankDesc cards))
      refine ⟨⟨sortByRankDesc cards, classifyTH4 (sortByRankDesc cards), s, 1⟩, ?_, ?_, ?_⟩
      · rw [evaluateHandTH_len4 cards hvalid hn, hs]
        rfl
      · exact classifyTH4_mem _
      · exact kicker_ne_invalid _ (classifyTH4_mem _)
  · intro hout
    unfold evaluateHandTH
    rw [if_pos (by omega)]

/-- Witness for C4: a 2-card pair of kings resolves to "Pair", and a
6-card input is Invalid with 0 chips. -/
theorem short_hands_are_kicker_categories_witness :
    (∃ h, evaluateHandTH [⟨"K", "H"⟩, ⟨"K", "S"⟩] = some h ∧
      h.hand_type ∈ kickerCategories ∧ h.hand_type ≠ "Invalid") ∧
    evaluateHandTH [⟨"A", "H"⟩, ⟨"A", "H"⟩, ⟨"A", "H"⟩, ⟨"A", "H"⟩, ⟨"A", "H"⟩, ⟨"A", "H"⟩] =
      some ⟨[⟨"A", "H"⟩, ⟨"A", "H"⟩, ⟨"A", "H"⟩, ⟨"A", "H"⟩, ⟨"A", "H"⟩, ⟨"A", "H"⟩], "Invalid", 0, 1⟩ :=
  ⟨(short_hands_are_kicker_categories [⟨"K", "H"⟩, ⟨"K", "S"⟩]).1
      (by decide) (by decide) (by decide),
   (short_hands_are_kicker_categories _).2 (by decide)⟩

/-! ## C7: additive stacking, multiplicative MulMult, scaled "++" -/

/-- An always-active AddMult(+5) modifier. -/
def addMult5 : Joker :=
  ⟨"t_add_mult", "Common", 5, "instant", "always", "", "", "+m", .num 5, .bool false, none, 0⟩

/-- An always-active MulMult(x2) modifier. -/
def mulMult2 : Joker :=
  ⟨"t_mul_mult", "Common", 5, "instant", "always", "", "", "Xm", .num 2, .bool false, none, 0⟩

/-- An always-active AddChipsAndMult(+20 chips, +4 mult) modifier whose
matching-card condition is the Hearts suit (packed "20c4m" bonus). -/
def chipsAndMult20c4m : Joker :=
  ⟨"t_chips_and_mult", "Common", 5, "instant", "always", "suit", "H", "++", .str "20c4m",
    .bool false, none, 0⟩

theorem applyOne_addMult5 (ht : String) (cards : List Card) (chips mult : Int) :
    applyOne addMult5 ht cards chips mult = some (chips, mult + 5, addMult5) := rfl

theorem applyOne_mulMult2 (ht : String) (cards : List Card) (chips mult : Int) :
    applyOne mulMult2 ht cards chips mult = some (chips, pyInt ((mult : ℚ) * 2), mulMult2) := rfl

theorem applyOne_chipsAndMult (ht : String) (cards : List Card) (chips mult : Int) :
    applyOne chipsAndMult20c4m ht cards chips mult =
      some (chips + 20 * ((cards.filter (fun c => c.suit == "H")).length : Int),
            mult + 4 * ((cards.filter (fun c => c.suit == "H")).length : Int),
            chipsAndMult20c4m) := rfl

theorem pyInt_mul_two (m : Int) : pyInt ((m : ℚ) * 2) = 2 * m := by
  have : ((m : ℚ) * 2) = ((2 * m : Int) : ℚ) := by push_cast; ring
  rw [this, pyInt_intCast]

/-- Claim C7: two always-active AddMult(+5) jokers together add exactly
+10 to a line's mult; one MulMult(x2) joker exactly doubles the
incoming mult (multiplies, never adds); an AddChipsAndMult(20,4) joker
adds both chips and mult, each scaled by the matching-card count. -/
theorem joker_stacking_properties (ht : String) (cards : List Card) (chips mult : Int) :
    applyJokerEffects [addMult5, addMult5] ht cards chips mult =
      some (chips, mult + 10, [addMult5, addMult5]) ∧
    applyJokerEffects [mulMult2] ht cards chips mult =
      some (chips, 2 * mult, [mulMult2]) ∧
    applyJokerEffects [chipsAndMult20c4m] ht cards chips mult =
      some (chips + 20 * ((cards.filter (fun c => c.suit == "H")).length : Int),
            mult + 4 * ((cards.filter (fun c => c.suit == "H")).length : Int),
            [chipsAndMult20c4m]) := by
  refine ⟨?_, ?_, ?_⟩
  · simp only [applyJokerEffects, applyOne_addMult5]
    norm_num
    omega
  · simp only [applyJokerEffects, applyOne_mulMult2, pyInt_mul_two]
  · simp only [applyJokerEffects, applyOne_chipsAndMult]

/-! ## C10: per-card effects with uncounted condition types add zero -/

theorem pyInt_zero : pyInt 0 = 0 := rfl

theorem pyInt_mul_zero (q : ℚ) : pyInt (q * ((0 : Nat) : Int)) = 0 := by
  norm_num
  rfl

/-- Claim C10: for a joker whose `per_card` is truthy (the literal
"first_only" included) and whose condition type is outside
suit/rank/card_type/rank_parity — e.g. an always-active joker with an
empty condition, or a hand_type condition — `_count_matching_cards`
returns 0, so the per-card AddChips/AddMult dispatch adds exactly 0 to
chips and mult; the joker still triggers, and a growing per-line joker
still grows. -/
theorem percard_uncounted_adds_zero (j : Joker) (ht : String)
    (cards : List Card) (chips mult : Int)
    (hct : j.condition_type ∉ (["suit", "rank", "card_type", "rank_parity"] : List String)) :
    countMatchingCards j cards = 0 ∧
    (j.per_card.truthy = true → (j.bonus_type = "+m" ∨ j.bonus_type = "+c") →
      (∃ q, j.getEffectiveBonus = .num q) →
      applyEffectGeneric j cards chips mult = some (chips, mult)) ∧
    (j.per_card.truthy = true → (j.bonus_type = "+m" ∨ j.bonus_type = "+c") →
      j.trigger = "always" → j.effect_type = "growing" → j.grow_per = some "line" →
      (∀ g, j.bonus_value = .num g →
        ¬(j.condition_type = "card_position" ∧ j.condition_value = "first_face") →
        applyOne j ht cards chips mult =
          some (chips, mult, { j with current_bonus := j.current_bonus + g }))) := by
  simp only [List.mem_cons, List.not_mem_nil, or_false, not_or] at hct
  obtain ⟨hsuit, hrank, hcardtype, hparity⟩ := hct
  have hcount : countMatchingCards j cards = 0 := by
    unfold countMatchingCards
    rw [if_neg (by simp [hsuit]), if_neg (by simp [hrank]),
      if_neg (by simp [hcardtype]), if_neg (by simp [hparity])]
  have hgen : j.per_card.truthy = true → (j.bonus_type = "+m" ∨ j.bonus_type = "+c") →
      (∃ q, j.getEffectiveBonus = .num q) →
      applyEffectGeneric j cards chips mult = some (chips, mult) := by
    intro hpc hbt ⟨q, hq⟩
    unfold applyEffectGeneric
    rw [hq, hpc, hcount]
    rcases hbt with hbt | hbt <;>
      simp [hbt, pyInt_mul_zero, pyInt_zero]
  refine ⟨hcount, hgen, ?_⟩
  intro hpc hbt htrig hgrow hline g hg hnotpos
  have hq : ∃ q, j.getEffectiveBonus = .num q := by
    refine ⟨j.current_bonus, ?_⟩
    unfold Joker.getEffectiveBonus
    rw [if_pos hgrow]
  have hcp : ¬((j.condition_type == "card_position" && j.condition_value == "first_face") = true) := by
    simp only [Bool.and_eq_true, beq_iff_eq]
    exact hnotpos
  have heff : applyEffect j cards chips mult = some (chips, mult) := by
    unfold applyEffect
    rw [hgen hpc hbt hq]
    unfold applyEffectSpecial
    simp only [Option.some_bind]
    rw [if_neg hcp]
  have hgrown : j.grow = some { j with current_bonus := j.current_bonus + g } := by
    unfold Joker.grow
    rw [if_pos hgrow, hg]
  unfold applyOne
  rw [if_neg (by simp [htrig])]
  rw [if_pos (show checkCondition j ht cards = true by unfold checkCondition; rw [htrig]; rfl)]
  simp only [heff]
  rw [if_pos ⟨hgrow, hline⟩, hgrown]
  rfl

/-- Witness for C10: an always-active growing per-card "+m" joker with
an empty condition counts 0 matching cards, leaves chips and mult
untouched, and still grows by its step. -/
theorem percard_uncounted_adds_zero_witness :
    countMatchingCards
      ⟨"t_u", "Common", 4, "growing", "always", "", "", "+m", .num 2, .bool true, some "line", 1⟩
      [⟨"A", "H"⟩] = 0 ∧
    applyOne
      ⟨"t_u", "Common", 4, "growing", "always", "", "", "+m", .num 2, .bool true, some "line", 1⟩
      "High Card" [⟨"A", "H"⟩] 30 1 =
      some (30, 1,
        ⟨"t_u", "Common", 4, "growing", "always", "", "", "+m", .num 2, .bool true, some "line", 3⟩) := by
  have h := percard_uncounted_adds_zero
    ⟨"t_u", "Common", 4, "growing", "always", "", "", "+m", .num 2, .bool true, some "line", 1⟩
    "High Card" [⟨"A", "H"⟩] 30 1 (by decide)
  refine ⟨h.1, ?_⟩
  have h3 := h.2.2 (by decide) (Or.inl rfl) rfl rfl rfl 2 rfl (by decide)
  rw [h3]
  norm_num

/-! ## C6: growing modifiers -/

/-- One `applyOne` step of any growing per-line joker whose trigger
fires and whose condition holds: the effect is whatever `_apply_effect`
computes from the joker's *current* state, and the accumulated bonus
then rises by exactly the configured step. -/
theorem applyOne_growing_line (j : Joker) (ht : String) (cards : List Card)
    (chips mult c1 m1 : Int) (g : ℚ)
    (htr : j.trigger = "always" ∨ j.trigger = "on_scored")
    (hcond : checkCondition j ht cards = true)
    (hgrow : j.effect_type = "growing") (hline : j.grow_per = some "line")
    (hg : j.bonus_value = .num g)
    (heff : applyEffect j cards chips mult = some (c1, m1)) :
    applyOne j ht cards chips mult =
      some (c1, m1, { j with current_bonus := j.current_bonus + g }) := by
  unfold applyOne
  rw [if_neg (by rcases htr with h | h <;> simp [h])]
  rw [if_pos hcond]
  simp only [heff]
  rw [if_pos ⟨hgrow, hline⟩]
  unfold Joker.grow
  rw [if_pos hgrow, hg]
  rfl

/-- Claim C6, amended: for *every* growing modifier whose `grow_per` is
"line" — any trigger that fires, any condition that holds, any effect
shape — each successful trigger inside `apply_joker_effects` increments
`current_bonus` by exactly the configured step (`bonus_value`); the
effect applied to the current line is computed from the joker's state
*before* the increment (its effective bonus is the accumulated value,
not the nominal one), and the incremented value persists into — and
first takes effect on — the next invocation on the same instance. -/
theorem growing_line_joker_step_and_persistence (j : Joker) (ht : String)
    (cards : List Card) (chips mult c1 m1 : Int) (g : ℚ)
    (htr : j.trigger = "always" ∨ j.trigger = "on_scored")
    (hcond : checkCondition j ht cards = true)
    (hgrow : j.effect_type = "growing") (hline : j.grow_per = some "line")
    (hg : j.bonus_value = .num g)
    (heff : applyEffect j cards chips mult = some (c1, m1)) :
    j.getEffectiveBonus = .num j.current_bonus ∧
    applyJokerEffects [j] ht cards chips mult =
      some (c1, m1, [{ j with current_bonus := j.current_bonus + g }]) ∧
    (∀ c2 m2 : Int,
      applyEffect { j with current_bonus := j.current_bonus + g } cards chips mult =
        some (c2, m2) →
      applyJokerEffects [{ j with current_bonus := j.current_bonus + g }] ht cards chips mult =
        some (c2, m2, [{ j with current_bonus := j.current_bonus + g + g }])) := by
  refine ⟨?_, ?_, ?_⟩
  · unfold Joker.getEffectiveBonus
    rw [if_pos hgrow]
  · simp only [applyJokerEffects,
      applyOne_growing_line j ht cards chips mult c1 m1 g htr hcond hgrow hline hg heff]
  · intro c2 m2 heff2
    simp only [applyJokerEffects,
      applyOne_growing_line { j with current_bonus := j.current_bonus + g } ht cards
        chips mult c2 m2 g htr hcond hgrow hline hg heff2]

/-- Witness for C6 (amended), on the repo's canonical growing joker
shape (Runner: on_scored, hand_type Straight, "+c", step 15, per-line,
grow_per "line"): with 20 chips accumulated it adds +20 chips to a
Straight line and grows to 35, and the next invocation adds +35 and
grows to 50. -/
theorem growing_line_joker_step_and_persistence_witness :
    applyJokerEffects
      [⟨"j_049", "Common", 5, "growing", "on_scored", "hand_type", "Straight", "+c", .num 15,
        .bool false, some "line", 20⟩]
      "Straight" [] 30 1 =
      some (50, 1,
        [⟨"j_049", "Common", 5, "growing", "on_scored", "hand_type", "Straight", "+c", .num 15,
          .bool false, some "line", 35⟩]) ∧
    applyJokerEffects
      [⟨"j_049", "Common", 5, "growing", "on_scored", "hand_type", "Straight", "+c", .num 15,
        .bool false, some "line", 35⟩]
      "Straight" [] 30 1 =
      some (65, 1,
        [⟨"j_049", "Common", 5, "growing", "on_scored", "hand_type", "Straight", "+c", .num 15,
          .bool false, some "line", 50⟩]) := by
  have ha := growing_line_joker_step_and_persistence
    ⟨"j_049", "Common", 5, "growing", "on_scored", "hand_type", "Straight", "+c", .num 15,
      .bool false, some "line", 20⟩
    "Straight" [] 30 1 50 1 15 (Or.inr rfl) (by decide) rfl rfl rfl (by decide)
  have hb := growing_line_joker_step_and_persistence
    ⟨"j_049", "Common", 5, "growing", "on_scored", "hand_type", "Straight", "+c", .num 15,
      .bool false, some "line", 35⟩
    "Straight" [] 30 1 65 1 15 (Or.inr rfl) (by decide) rfl rfl rfl (by decide)
  constructor
  · have h1 := ha.2.1
    norm_num at h1 ⊢
    exact h1
  · have h2 := hb.2.1
    norm_num at h2 ⊢
    exact h2

/-- Counterexample for C6 as stated: a growing modifier whose
`grow_per` is not "line" (here `none`) triggers successfully inside
`apply_joker_effects` — the condition holds and its effect is applied —
yet its accumulated bonus is not incremented at all, although its
configured step is 2. -/
theorem growing_nonline_joker_does_not_grow :
    checkCondition
      ⟨"t_ng", "Common", 5, "growing", "always", "", "", "+c", .num 2, .bool false, none, 0⟩
      "Pair" [] = true ∧
    applyJokerEffects
      [⟨"t_ng", "Common", 5, "growing", "always", "", "", "+c", .num 2, .bool false, none, 0⟩]
      "Pair" [] 10 1 =
      some (10, 1,
        [⟨"t_ng", "Common", 5, "growing", "always", "", "", "+c", .num 2, .bool false, none, 0⟩]) ∧
    ((0 : ℚ) + 2 ≠ 0) := by
  refine ⟨rfl, rfl, by norm_num⟩

/-! ## C8: heuristic shop agent -/

/-- Claim C8, amended: `recommend_shop_action` is a pure function of
its inputs (no randomness, no simulation). With no joker manager it
returns the no-op; with a free modifier slot it buys the *first* item
of the display that holds a joker with a simple "+m"/"+c" bonus the
player can afford; otherwise — no free slot or no such item — it
*rerolls* when the reroll cost is affordable, and only returns the
no-op when it is not. -/
theorem shop_agent_characterization (hasManager : Bool) (jokerCount maxSlots : Nat)
    (money : Int) (shop : List ShopItem) (rerollCost : Int) :
    (hasManager = false →
      recommendShopAction hasManager jokerCount maxSlots money shop rerollCost = ("none", -1)) ∧
    (hasManager = true → jokerCount < maxSlots →
      ∀ it, shop.find? (buyable money) = some it →
        recommendShopAction hasManager jokerCount maxSlots money shop rerollCost = ("buy", it.index)) ∧
    (hasManager = true →
      (¬ jokerCount < maxSlots ∨ shop.find? (buyable money) = none) →
      rerollCost ≤ money →
      recommendShopAction hasManager jokerCount maxSlots money shop rerollCost = ("reroll", -1)) ∧
    (hasManager = true →
      (¬ jokerCount < maxSlots ∨ shop.find? (buyable money) = none) →
      ¬ rerollCost ≤ money →
      recommendShopAction hasManager jokerCount maxSlots money shop rerollCost = ("none", -1)) := by
  refine ⟨?_, ?_, ?_, ?_⟩
  · intro h
    unfold recommendShopAction
    rw [h]
    rfl
  · intro h hslot it hfind
    unfold recommendShopAction
    rw [h]
    simp only [Bool.not_true, Bool.false_eq_true, if_false, if_pos hslot, hfind]
  · intro h hnobuy hcost
    unfold recommendShopAction
    rw [h]
    simp only [Bool.not_true, Bool.false_eq_true, if_false]
    rcases hnobuy with hslot | hfind
    · rw [if_neg hslot]
      rw [if_pos hcost]
    · by_cases hslot : jokerCount < maxSlots
      · rw [if_pos hslot, hfind]
        rw [if_pos hcost]
      · rw [if_neg hslot]
        rw [if_pos hcost]
  · intro h hnobuy hcost
    unfold recommendShopAction
    rw [h]
    simp only [Bool.not_true, Bool.false_eq_true, if_false]
    rcases hnobuy with hslot | hfind
    · rw [if_neg hslot]
      rw [if_neg hcost]
    · by_cases hslot : jokerCount < maxSlots
      · rw [if_pos hslot, hfind]
        rw [if_neg hcost]
      · rw [if_neg hslot]
        rw [if_neg hcost]

/-- Witness for C8 (amended): with a free slot and an affordable "+m"
item the agent buys it; with an empty shop but an affordable reroll it
rerolls. -/
theorem shop_agent_characterization_witness :
    recommendShopAction true 0 5 10 [⟨some addMult5, 0⟩] 5 = ("buy", 0) ∧
    recommendShopAction true 0 5 10 [] 5 = ("reroll", -1) :=
  ⟨(shop_agent_characterization true 0 5 10 [⟨some addMult5, 0⟩] 5).2.1 rfl
      (by decide) ⟨some addMult5, 0⟩ (by decide),
   (shop_agent_characterization true 0 5 10 [] 5).2.2.1 rfl (Or.inr rfl) (by decide)⟩

/-- Counterexample for C8 as stated: the claim says that in every case
other than a buy the agent does nothing, but with no buyable item and
10 money against a reroll cost of 5 the code returns the reroll action,
not the no-op. -/
theorem shop_agent_rerolls_instead_of_noop :
    recommendShopAction true 0 5 10 [] 5 = ("reroll", -1) ∧
    (("reroll", -1) : String × Int) ≠ (("none", -1) : String × Int) := by
  refine ⟨rfl, by decide⟩

/-! ## C2: rank labels of the selected top-K lines -/

/-- Rank labelling over a selected list: the properties of
`rankOf` applied pointwise, as `_get_top_lines` does. -/
theorem rankOf_map_props (topk : List LineRec) :
    (∀ p, (topk.map (fun l => (l, rankOf (topk.map (·.score)) l.score)))[0]? = some p →
      p.2 = 1) ∧
    (∀ p ∈ topk.map (fun l => (l, rankOf (topk.map (·.score)) l.score)),
      p.2 = 1 ∨ p.2 = 2 ∨ p.2 = 3) ∧
    (∀ p ∈ topk.map (fun l => (l, rankOf (topk.map (·.score)) l.score)),
      ∀ q ∈ topk.map (fun l => (l, rankOf (topk.map (·.score)) l.score)),
      p.1.score = q.1.score → p.2 = q.2) := by
  refine ⟨?_, ?_, ?_⟩
  · intro p hp
    rw [List.getElem?_map] at hp
    rcases h0 : topk[0]? with _ | l0
    · rw [h0] at hp
      simp at hp
    · rw [h0] at hp
      simp only [Option.map_some'] at hp
      have hpe := Option.some.inj hp
      have hp2 : p.2 = rankOf (topk.map (·.score)) l0.score := by rw [← hpe]
      rw [hp2]
      unfold rankOf
      rw [if_pos (show (topk.map (·.score)).get? 0 = some l0.score by
        rw [List.get?_eq_getElem?, List.getElem?_map, h0]; rfl)]
  · intro p hp
    rcases List.mem_map.1 hp with ⟨l, _, hpl⟩
    have hp2 : p.2 = rankOf (topk.map (·.score)) l.score := by rw [← hpl]
    rw [hp2]
    unfold rankOf
    split_ifs
    · left; rfl
    · right; left; rfl
    · right; right; rfl
  · intro p hp q hq hscore
    rcases List.mem_map.1 hp with ⟨l, _, hpl⟩
    rcases List.mem_map.1 hq with ⟨l2, _, hql⟩
    have hps : p.1.score = l.score := by rw [← hpl]
    have hqs : q.1.score = l2.score := by rw [← hql]
    have hp2 : p.2 = rankOf (topk.map (·.score)) l.score := by rw [← hpl]
    have hq2 : q.2 = rankOf (topk.map (·.score)) l2.score := by rw [← hql]
    rw [hp2, hq2, ← hps, ← hqs, hscore]

/-- The positional rank rule over a selected list. -/
theorem rankOf_map_positional (topk : List LineRec) (p p0 : LineRec × Int)
    (hp : p ∈ topk.map (fun l => (l, rankOf (topk.map (·.score)) l.score)))
    (h0 : (topk.map (fun l => (l, rankOf (topk.map (·.score)) l.score)))[0]? = some p0) :
    (p.1.score = p0.1.score → p.2 = 1) ∧
    (p.1.score ≠ p0.1.score →
      ((∃ p1, (topk.map (fun l => (l, rankOf (topk.map (·.score)) l.score)))[1]? = some p1 ∧
          p.1.score = p1.1.score) → p.2 = 2) ∧
      (¬(∃ p1, (topk.map (fun l => (l, rankOf (topk.map (·.score)) l.score)))[1]? = some p1 ∧
          p.1.score = p1.1.score) → p.2 = 3)) := by
  rcases List.mem_map.1 hp with ⟨l, _, hpl⟩
  have hps : p.1.score = l.score := by rw [← hpl]
  have hp2 : p.2 = rankOf (topk.map (·.score)) l.score := by rw [← hpl]
  rw [List.getElem?_map] at h0
  rcases hl0 : topk[0]? with _ | l0
  · rw [hl0] at h0
    simp at h0
  · rw [hl0] at h0
    simp only [Option.map_some'] at h0
    have h0e := Option.some.inj h0
    have h0s : p0.1.score = l0.score := by rw [← h0e]
    have hsc0 : (topk.map (·.score)).get? 0 = some l0.score := by
      rw [List.get?_eq_getElem?, List.getElem?_map, hl0]
      rfl
    constructor
    · intro heq
      have hls : l0.score = l.score := by rw [← h0s, ← heq, hps]
      rw [hp2]
      unfold rankOf
      rw [if_pos (by rw [hsc0, hls])]
    · intro hne
      have hne0 : ¬((topk.map (·.score)).get? 0 = some l.score) := by
        rw [hsc0]
        simp only [Option.some.injEq]
        intro hcon
        exact hne (by rw [hps, h0s, ← hcon])
      constructor
      · rintro ⟨p1, hp1, hp1s⟩
        rw [List.getElem?_map] at hp1
        rcases hl1 : topk[1]? with _ | l1
        · rw [hl1] at hp1
          simp at hp1
        · rw [hl1] at hp1
          simp only [Option.map_some'] at hp1
          have h1e := Option.some.inj hp1
          have h1s : p1.1.score = l1.score := by rw [← h1e]
          have hls : l1.score = l.score := by rw [← h1s, ← hp1s, hps]
          rw [hp2]
          unfold rankOf
          rw [if_neg hne0, if_pos (by
            rw [List.get?_eq_getElem?, List.getElem?_map, hl1]
            simp only [Option.map_some']
            rw [hls])]
      · intro hnot
        have hneg1 : ¬((topk.map (·.score)).get? 1 = some l.score) := by
          intro hcon
          rw [List.get?_eq_getElem?, List.getElem?_map] at hcon
          rcases hl1 : topk[1]? with _ | l1
          · rw [hl1] at hcon
            simp at hcon
          · rw [hl1] at hcon
            simp only [Option.map_some', Option.some.injEq] at hcon
            exact hnot ⟨(l1, rankOf (topk.map (·.score)) l1.score),
              by rw [List.getElem?_map, hl1]; rfl,
              by rw [hps, hcon]⟩
        rw [hp2]
        unfold rankOf
        rw [if_neg hne0, if_neg hneg1]

/-- Claim C2, amended: in the ranked output of `_get_top_lines` with
topK = 3, the first selected entry is labelled 1, and every selected
entry is labelled 1 if its score equals the first selected score, 2 if
it instead equals the second selected score, and 3 otherwise; labels
only take values 1..3 and equal-scoring selected lines always share a
label. (The source labels by comparing against the first and second
selected scores, not by incrementing the previous label.) -/
theorem rank_label_assignment (lines : List LineRec) (top : List (LineRec × Int))
    (total : Int) (h : getTopLines lines 3 = (top, total)) :
    (∀ p, top[0]? = some p → p.2 = 1) ∧
    (∀ p ∈ top, p.2 = 1 ∨ p.2 = 2 ∨ p.2 = 3) ∧
    (∀ p ∈ top, ∀ q ∈ top, p.1.score = q.1.score → p.2 = q.2) ∧
    (∀ p ∈ top, ∀ p0, top[0]? = some p0 →
      (p.1.score = p0.1.score → p.2 = 1) ∧
      (p.1.score ≠ p0.1.score →
        ((∃ p1, top[1]? = some p1 ∧ p.1.score = p1.1.score) → p.2 = 2) ∧
        (¬(∃ p1, top[1]? = some p1 ∧ p.1.score = p1.1.score) → p.2 = 3))) := by
  unfold getTopLines at h
  by_cases hnil : lines = []
  · rw [if_pos hnil] at h
    injection h with h1 h2
    subst h1
    refine ⟨?_, ?_, ?_, ?_⟩ <;> simp
  · rw [if_neg hnil] at h
    simp only [] at h
    by_cases hk : (lines.insertionSort keyLe).take (min 3 ((lines.insertionSort keyLe).length : Int)).toNat = []
    · rw [if_pos hk] at h
      injection h with h1 h2
      subst h1
      refine ⟨?_, ?_, ?_, ?_⟩ <;> simp
    · rw [if_neg hk] at h
      injection h with h1 h2
      subst h1
      obtain ⟨hfirst, hvals, hshare⟩ := rankOf_map_props
        ((lines.insertionSort keyLe).take (min 3 ((lines.insertionSort keyLe).length : Int)).toNat)
      refine ⟨hfirst, hvals, hshare, ?_⟩
      intro p hp p0 h0
      exact rankOf_map_positional _ p p0 hp h0

/-- Concrete line records used to exercise the rank labelling. -/
def testHand : Hand := ⟨[], "Test", 10, 1⟩

/-- The docstring example of `_get_top_lines`: scores 40, 20, 20, 20, 5
over Row0, Col0, Col1, Row1, Row2. -/
def exampleLines : List LineRec :=
  [⟨"row", 0, 40, testHand⟩, ⟨"col", 0, 20, testHand⟩, ⟨"col", 1, 20, testHand⟩,
   ⟨"row", 1, 20, testHand⟩, ⟨"row", 2, 5, testHand⟩]

/-- Witness for C2 (amended): on the docstring example the selected
lines are Row0 (rank 1), Row1 and Col0 (both rank 2, equal scores at
the cutoff sharing a label), and the first selected entry has rank 1. -/
theorem rank_label_assignment_witness :
    (getTopLines exampleLines 3).1[0]? =
      some (⟨"row", 0, 40, testHand⟩, 1) ∧
    ((⟨"row", 0, 40, testHand⟩, (1 : Int)) : LineRec × Int).2 = 1 ∧
    (getTopLines exampleLines 3).1.map (fun p => p.2) = [1, 2, 2] := by
  refine ⟨by decide, ?_, by decide⟩
  exact (rank_label_assignment exampleLines (getTopLines exampleLines 3).1
    (getTopLines exampleLines 3).2 rfl).1 _ (by decide)

/-- Counterexample for C2 as stated: for three recorded lines with
scores 10, 10, 5 the code labels them 1, 1, 3 — the third entry is
compared against the first and second selected scores and falls through
to rank 3 — whereas the claimed previous-rank-plus-one rule would label
them 1, 1, 2. -/
theorem rank_label_not_previous_plus_one :
    (getTopLines
        [⟨"row", 0, 10, testHand⟩, ⟨"row", 1, 10, testHand⟩, ⟨"row", 2, 5, testHand⟩]
        3).1.map (fun p => p.2) = [1, 1, 3] ∧
    ([1, 1, 3] : List Int) ≠ [1, 1, 2] := by
  refine ⟨by decide, by decide⟩

/-! ## C1: the grid total is the sum of the selected top-K line scores -/

theorem buildRowLines_kind :
    ∀ (grid : List (List (Option Card))) (jokers : List Joker) (r : Nat)
      (ls : List LineRec) (js : List Joker),
      buildRowLines jokers grid r = some (ls, js) → ∀ l ∈ ls, l.kind = "row" := by
  intro grid
  induction grid with
  | nil =>
    intro jokers r ls js h l hl
    unfold buildRowLines at h
    injection h with h1
    injection h1 with hls hjs
    subst hls
    cases hl
  | cons row rest ih =>
    intro jokers r ls js h l hl
    unfold buildRowLines at h
    by_cases hc : (row.filterMap id).length = 5
    · rw [if_pos hc] at h
      rcases hsl : scoreLine jokers (row.filterMap id) with _ | ⟨sc, hand, js1⟩
      · simp only [hsl] at h
        exact Option.noConfusion h
      · simp only [hsl] at h
        rcases hrest : buildRowLines js1 rest (r + 1) with _ | ⟨ls2, js2⟩
        · simp only [hrest] at h
          exact Option.noConfusion h
        · simp only [hrest] at h
          injection h with h1
          injection h1 with hls hjs
          subst hls
          rcases List.mem_cons.1 hl with hl | hl
          · rw [hl]
          · exact ih js1 (r + 1) ls2 js2 hrest l hl
    · rw [if_neg hc] at h
      rcases hrest : buildRowLines jokers rest (r + 1) with _ | ⟨ls2, js2⟩
      · simp only [hrest] at h
        exact Option.noConfusion h
      · simp only [hrest] at h
        injection h with h1
        injection h1 with hls hjs
        subst hls
        exact ih jokers (r + 1) ls2 js2 hrest l hl

theorem buildColLines_kind :
    ∀ (cs : List Nat) (grid : List (List (Option Card))) (jokers : List Joker)
      (ls : List LineRec) (js : List Joker),
      buildColLines jokers grid cs = some (ls, js) → ∀ l ∈ ls, l.kind = "col" := by
  intro cs
  induction cs with
  | nil =>
    intro grid jokers ls js h l hl
    unfold buildColLines at h
    injection h with h1
    injection h1 with hls hjs
    subst hls
    cases hl
  | cons c rest ih =>
    intro grid jokers ls js h l hl
    unfold buildColLines at h
    by_cases hc : (getColCards grid c).length = 5
    · rw [if_pos hc] at h
      rcases hsl : scoreLine jokers (getColCards grid c) with _ | ⟨sc, hand, js1⟩
      · simp only [hsl] at h
        exact Option.noConfusion h
      · simp only [hsl] at h
        rcases hrest : buildColLines js1 grid rest with _ | ⟨ls2, js2⟩
        · simp only [hrest] at h
          exact Option.noConfusion h
        · simp only [hrest] at h
          injection h with h1
          injection h1 with hls hjs
          subst hls
          rcases List.mem_cons.1 hl with hl | hl
          · rw [hl]
          · exact ih grid js1 ls2 js2 hrest l hl
    · rw [if_neg hc] at h
      rcases hrest : buildColLines jokers grid rest with _ | ⟨ls2, js2⟩
      · simp only [hrest] at h
        exact Option.noConfusion h
      · simp only [hrest] at h
        injection h with h1
        injection h1 with hls hjs
        subst hls
        exact ih grid jokers ls2 js2 hrest l hl

/-- On lines whose kind is "row" or "col", the code's sort key order
implies the spec's wording of the order. -/
theorem keyLe_imp_claimOrd (a b : LineRec)
    (ha : a.kind = "row" ∨ a.kind = "col") (hb : b.kind = "row" ∨ b.kind = "col")
    (h : keyLe a b) : claimOrd a b := by
  unfold keyLe at h
  unfold claimOrd
  rcases ha with ha | ha <;> rcases hb with hb | hb <;>
    simp only [prNum, ha, hb] at h ⊢ <;> simp at h ⊢ <;> omega

theorem getTopLines_total (lines : List LineRec) (k : Int) :
    (getTopLines lines k).2 =
      (((lines.insertionSort keyLe).take
          (min k ((lines.insertionSort keyLe).length : Int)).toNat).map (·.score)).sum := by
  unfold getTopLines
  by_cases hnil : lines = []
  · rw [if_pos hnil]
    subst hnil
    simp [List.insertionSort]
  · rw [if_neg hnil]
    simp only []
    by_cases hk : (lines.insertionSort keyLe).take
        (min k ((lines.insertionSort keyLe).length : Int)).toNat = []
    · rw [if_pos hk, hk]
      simp
    · rw [if_neg hk]

/-- Claim C1: when `score_current_grid` succeeds, its total equals the
sum of the scores of the first `max 0 (min topK n)` recorded lines in
the order "score descending, rows before columns, index ascending"
(the code's sorted list is a permutation of the recorded lines and is
sorted for the spec's order); lines outside this selected prefix
contribute nothing, and with no scorable lines the result is total = 0
with an empty ranked list. -/
theorem score_total_is_topk_sum (grid : List (List (Option Card))) (cols : Nat)
    (jokers : List Joker) (k : Int) (lines : List LineRec) (total : Int)
    (rh ch : List Hand) (top : List (LineRec × Int))
    (hlines : gridAllLines grid cols jokers = some lines)
    (h : scoreCurrentGrid grid cols jokers k = some (total, rh, ch, top)) :
    lines.Perm (lines.insertionSort keyLe) ∧
    List.Sorted claimOrd (lines.insertionSort keyLe) ∧
    total = (((lines.insertionSort keyLe).take
        (min k (lines.length : Int)).toNat).map (·.score)).sum ∧
    (lines = [] → total = 0 ∧ top = []) := by
  unfold gridAllLines at hlines
  unfold scoreCurrentGrid at h
  rcases hrow : buildRowLines jokers grid 0 with _ | ⟨rls, js⟩
  · simp only [hrow] at hlines
    exact Option.noConfusion hlines
  · simp only [hrow] at hlines h
    rcases hcol : buildColLines js grid (List.range cols) with _ | ⟨cls, js2⟩
    · simp only [hcol] at hlines
      exact Option.noConfusion hlines
    · simp only [hcol] at hlines h
      injection hlines with hl
      subst hl
      injection h with h1
      injection h1 with htotal h2
      injection h2 with hrh h3
      injection h3 with hch htop
      have hkinds : ∀ l ∈ rls ++ cls, l.kind = "row" ∨ l.kind = "col" := by
        intro l hl
        rcases List.mem_append.1 hl with hl | hl
        · exact Or.inl (buildRowLines_kind grid jokers 0 rls js hrow l hl)
        · exact Or.inr (buildColLines_kind (List.range cols) grid js cls js2 hcol l hl)
      have hperm : (rls ++ cls).Perm ((rls ++ cls).insertionSort keyLe) :=
        (List.perm_insertionSort keyLe (rls ++ cls)).symm
      refine ⟨hperm, ?_, ?_, ?_⟩
      · have hsorted : List.Sorted keyLe ((rls ++ cls).insertionSort keyLe) :=
          List.sorted_insertionSort keyLe (rls ++ cls)
        refine List.Pairwise.imp_of_mem ?_ hsorted
        intro a b hma hmb hab
        exact keyLe_imp_claimOrd a b
          (hkinds a (hperm.mem_iff.2 hma))
          (hkinds b (hperm.mem_iff.2 hmb))
          hab
      · rw [← htotal, getTopLines_total]
        rw [(List.perm_insertionSort keyLe (rls ++ cls)).length_eq]
      · intro hempty
        rw [hempty] at htotal htop
        unfold getTopLines at htotal htop
        rw [if_pos rfl] at htotal htop
        exact ⟨htotal.symm, htop.symm⟩

/-- A one-complete-row grid and its scored line, for the C1 witness. -/
def witnessGrid : List (List (Option Card)) :=
  [[some ⟨"A", "H"⟩, some ⟨"A", "S"⟩, some ⟨"A", "H"⟩, some ⟨"A", "D"⟩, some ⟨"A", "C"⟩]]

/-- Witness for C1: on a grid holding one complete row of aces (scored
as Five of a Kind, 160 chips, mult 1) and no complete column, the total
equals the sum of the selected prefix of the sorted line list. -/
theorem score_total_is_topk_sum_witness :
    ∃ lines total rh ch top,
      gridAllLines witnessGrid 5 [] = some lines ∧
      scoreCurrentGrid witnessGrid 5 [] 3 = some (total, rh, ch, top) ∧
      total = (((lines.insertionSort keyLe).take
          (min 3 (lines.length : Int)).toNat).map (·.score)).sum := by
  refine ⟨[⟨"row", 0, 160,
      ⟨sortByRankDesc [⟨"A", "H"⟩, ⟨"A", "S"⟩, ⟨"A", "H"⟩, ⟨"A", "D"⟩, ⟨"A", "C"⟩],
        "Five of a Kind", 160, 1⟩⟩], ?_⟩
  have h1 : gridAllLines witnessGrid 5 [] = some [⟨"row", 0, 160,
      ⟨sortByRankDesc [⟨"A", "H"⟩, ⟨"A", "S"⟩, ⟨"A", "H"⟩, ⟨"A", "D"⟩, ⟨"A", "C"⟩],
        "Five of a Kind", 160, 1⟩⟩] := by decide
  rcases hsc : scoreCurrentGrid witnessGrid 5 [] 3 with _ | ⟨total, rh, ch, top⟩
  · exfalso
    revert hsc
    decide
  · refine ⟨total, rh, ch, top, h1, rfl, ?_⟩
    exact (score_total_is_topk_sum witnessGrid 5 [] 3 _ total rh ch top h1 hsc).2.2.1

/-! ## C9: the Monte Carlo evaluator never mutates the caller's jokers
or grid -/

theorem applyJokerEffectsStore_length (ids : List Nat) :
    ∀ (store : List Joker) (ht : String) (cards : List Card) (chips mult : Int),
      ((applyJokerEffectsStore ids store ht cards chips mult).2).length = store.length := by
  induction ids with
  | nil => intro store ht cards chips mult; rfl
  | cons i rest ih =>
    intro store ht cards chips mult
    unfold applyJokerEffectsStore
    rcases hj : store.get? i with _ | j
    · rfl
    · rcases ha : applyOne j ht cards chips mult with _ | ⟨c, m, j2⟩
      · simp only [ha]
      · simp only [ha]
        rw [ih (store.set i j2) ht cards c m, List.length_set]

theorem applyJokerEffectsStore_frame (ids : List Nat) :
    ∀ (store : List Joker) (ht : String) (cards : List Card) (chips mult : Int) (m0 i : Nat),
      (∀ id ∈ ids, m0 ≤ id) → i < m0 →
      ((applyJokerEffectsStore ids store ht cards chips mult).2)[i]? = store[i]? := by
  induction ids with
  | nil => intro store ht cards chips mult m0 i _ _; rfl
  | cons idx rest ih =>
    intro store ht cards chips mult m0 i hids hi
    unfold applyJokerEffectsStore
    rcases hj : store.get? idx with _ | j
    · rfl
    · rcases ha : applyOne j ht cards chips mult with _ | ⟨c, m, j2⟩
      · simp only [ha]
      · simp only [ha]
        rw [ih (store.set idx j2) ht cards c m m0 i
          (fun id hid => hids id (List.mem_cons_of_mem _ hid)) hi]
        exact List.getElem?_set_ne
          (by have := hids idx (List.mem_cons_self _ _); omega)

theorem scoreSampleLines_length (lines : List (List Card)) :
    ∀ (ids : List Nat) (store : List Joker),
      ((scoreSampleLines lines ids store).2).length = store.length := by
  induction lines with
  | nil => intro ids store; rfl
  | cons line rest ih =>
    intro ids store
    unfold scoreSampleLines
    rcases hh : evaluateHandPG line with _ | hand
    · rfl
    · rcases hs : applyJokerEffectsStore ids store hand.hand_type line hand.chips hand.mult
        with ⟨ores, st⟩
      have hlen : st.length = store.length := by
        have h0 := applyJokerEffectsStore_length ids store hand.hand_type line hand.chips hand.mult
        rw [hs] at h0
        exact h0
      rcases ores with _ | cm
      · simp only [hs]
        exact hlen
      · rcases hrest : scoreSampleLines rest ids st with ⟨ores2, st2⟩
        have hlen2 : st2.length = st.length := by
          have h0 := ih ids st
          rw [hrest] at h0
          exact h0
        rcases ores2 with _ | scs <;> simp only [hs, hrest] <;> omega

theorem scoreSampleLines_frame (lines : List (List Card)) :
    ∀ (ids : List Nat) (store : List Joker) (m0 i : Nat),
      (∀ id ∈ ids, m0 ≤ id) → i < m0 →
      ((scoreSampleLines lines ids store).2)[i]? = store[i]? := by
  induction lines with
  | nil => intro ids store m0 i _ _; rfl
  | cons line rest ih =>
    intro ids store m0 i hids hi
    unfold scoreSampleLines
    rcases hh : evaluateHandPG line with _ | hand
    · rfl
    · rcases hs : applyJokerEffectsStore ids store hand.hand_type line hand.chips hand.mult
        with ⟨ores, st⟩
      have hframe : st[i]? = store[i]? := by
        have h0 := applyJokerEffectsStore_frame ids store hand.hand_type line hand.chips hand.mult
          m0 i hids hi
        rw [hs] at h0
        exact h0
      rcases ores with _ | cm
      · simp only [hs]
        exact hframe
      · rcases hrest : scoreSampleLines rest ids st with ⟨ores2, st2⟩
        have hframe2 : st2[i]? = st[i]? := by
          have h0 := ih ids st m0 i hids hi
          rw [hrest] at h0
          exact h0
        rcases ores2 with _ | scs <;> simp only [hs, hrest] <;> rw [hframe2, hframe]

theorem buildTempRow_frozen (grid : List (List (Option Card)))
    (frozen : List (Nat × Nat)) (rng : Nat → Card) (r : Nat) :
    ∀ (cs : List Nat) (t i c : Nat) (card : Card), cs[i]? = some c →
      frozen.contains (r, c) = true → (grid.getD r []).getD c none = some card →
      ((buildTempRow grid frozen rng r cs t).1)[i]? = some card := by
  intro cs
  induction cs with
  | nil =>
    intro t i c card hci _ _
    simp at hci
  | cons c0 rest ih =>
    intro t i c card hci hfz hcell
    unfold buildTempRow
    rcases i with _ | i
    · have hc0 : c0 = c := by
        simpa using hci
      subst hc0
      rw [if_pos hfz]
      simp only [hcell]
      rcases hbr : buildTempRow grid frozen rng r rest t with ⟨cs2, t2⟩
      simp [hbr]
    · have hci2 : rest[i]? = some c := by
        simpa using hci
      rcases hscrut : (if frozen.contains (r, c0) = true
          then (grid.getD r []).getD c0 none else none) with _ | cd
      · simp only [hscrut]
        rcases hbr : buildTempRow grid frozen rng r rest (t + 1) with ⟨cs2, t2⟩
        simp only [hbr]
        have := ih (t + 1) i c card hci2 hfz hcell
        rw [hbr] at this
        simpa using this
      · simp only [hscrut]
        rcases hbr : buildTempRow grid frozen rng r rest t with ⟨cs2, t2⟩
        simp only [hbr]
        have := ih t i c card hci2 hfz hcell
        rw [hbr] at this
        simpa using this

theorem buildTempGrid_row (grid : List (List (Option Card)))
    (frozen : List (Nat × Nat)) (rng : Nat → Card) (cols : Nat) :
    ∀ (rs : List Nat) (t i r : Nat), rs[i]? = some r →
      ∃ t2, ((buildTempGrid grid frozen rng cols rs t).1)[i]? =
        some ((buildTempRow grid frozen rng r (List.range cols) t2).1) := by
  intro rs
  induction rs with
  | nil =>
    intro t i r hri
    simp at hri
  | cons r0 rest ih =>
    intro t i r hri
    unfold buildTempGrid
    rcases i with _ | i
    · have hr0 : r0 = r := by
        simpa using hri
      subst hr0
      rcases hbr : buildTempRow grid frozen rng r0 (List.range cols) t with ⟨row, t2⟩
      rcases hbg : buildTempGrid grid frozen rng cols rest t2 with ⟨rows2, t3⟩
      refine ⟨t, ?_⟩
      simp [hbr, hbg]
    · have hri2 : rest[i]? = some r := by
        simpa using hri
      rcases hbr : buildTempRow grid frozen rng r0 (List.range cols) t with ⟨row, t2⟩
      rcases hbg : buildTempGrid grid frozen rng cols rest t2 with ⟨rows2, t3⟩
      obtain ⟨t4, h4⟩ := ih t2 i r hri2
      rw [hbg] at h4
      refine ⟨t4, ?_⟩
      simp only [hbr, hbg]
      simpa using h4

theorem sampleOnce_frame (grid : List (List (Option Card)))
    (frozen : List (Nat × Nat)) (rows cols k n : Nat) (store : List Joker)
    (rng : Nat → Card) (t : Nat) (i : Nat)
    (hn : n ≤ store.length) (hi : i < n) :
    ((sampleOnce grid frozen rows cols k n store rng t).2.1)[i]? = store[i]? := by
  unfold sampleOnce
  rcases htg : buildTempGrid grid frozen rng cols (List.range rows) t with ⟨temp, t2⟩
  simp only [htg]
  rcases hss : scoreSampleLines
      ((List.range rows).map (fun r => temp.getD r []) ++
        (List.range cols).map (fun c => temp.map (fun row => row.getD c defaultCard)))
      (List.range' store.length n) (store ++ store.take n) with ⟨ores, st⟩
  have hframe : st[i]? = (store ++ store.take n)[i]? := by
    have h0 := scoreSampleLines_frame
      ((List.range rows).map (fun r => temp.getD r []) ++
        (List.range cols).map (fun c => temp.map (fun row => row.getD c defaultCard)))
      (List.range' store.length n) (store ++ store.take n) store.length i
      (fun id hid => (List.mem_range'_1.1 hid).1) (by omega)
    rw [hss] at h0
    exact h0
  have happ : (store ++ store.take n)[i]? = store[i]? :=
    List.getElem?_append_left (by omega)
  rcases ores with _ | scs <;> simp only [hss] <;> rw [hframe, happ]

theorem sampleOnce_length (grid : List (List (Option Card)))
    (frozen : List (Nat × Nat)) (rows cols k n : Nat) (store : List Joker)
    (rng : Nat → Card) (t : Nat) :
    store.length ≤ ((sampleOnce grid frozen rows cols k n store rng t).2.1).length := by
  unfold sampleOnce
  rcases htg : buildTempGrid grid frozen rng cols (List.range rows) t with ⟨temp, t2⟩
  simp only [htg]
  rcases hss : scoreSampleLines
      ((List.range rows).map (fun r => temp.getD r []) ++
        (List.range cols).map (fun c => temp.map (fun row => row.getD c defaultCard)))
      (List.range' store.length n) (store ++ store.take n) with ⟨ores, st⟩
  have hlen : st.length = (store ++ store.take n).length := by
    have h0 := scoreSampleLines_length
      ((List.range rows).map (fun r => temp.getD r []) ++
        (List.range cols).map (fun c => temp.map (fun row => row.getD c defaultCard)))
      (List.range' store.length n) (store ++ store.take n)
    rw [hss] at h0
    exact h0
  rw [List.length_append] at hlen
  rcases ores with _ | scs <;> simp only [hss] <;> simp <;> omega

theorem estimateLoop_frame (grid : List (List (Option Card)))
    (frozen : List (Nat × Nat)) (rows cols k n : Nat) (rng : Nat → Card) :
    ∀ (samples : Nat) (store : List Joker) (t : Nat) (acc : ℚ) (i : Nat),
      n ≤ store.length → i < n →
      ((estimateLoop grid frozen rows cols k n rng samples store t acc).2)[i]? = store[i]? := by
  intro samples
  induction samples with
  | zero =>
    intro store t acc i _ _
    rfl
  | succ s ih =>
    intro store t acc i hn hi
    unfold estimateLoop
    rcases hso : sampleOnce grid frozen rows cols k n store rng t with ⟨osc, st, t2⟩
    have hframe : st[i]? = store[i]? := by
      have h0 := sampleOnce_frame grid frozen rows cols k n store rng t i hn hi
      rw [hso] at h0
      exact h0
    have hlen : store.length ≤ st.length := by
      have h0 := sampleOnce_length grid frozen rows cols k n store rng t
      rw [hso] at h0
      exact h0
    rcases osc with _ | sc
    · simp only [hso]
      exact hframe
    · simp only [hso]
      rw [ih st t2 (acc + (sc : ℚ)) i (by omega) hi]
      exact hframe

/-- Claim C9: `estimate_expected_score` leaves the caller's joker
objects untouched — every store slot below the caller's joker count is
unchanged when the call returns, and already after each individual
sample, because each sample evaluates freshly appended duplicates — and
the caller's grid is only read: frozen populated cells are *copied*
into the per-sample temporary grid (which alone receives resampled
cards), so growth accumulated in one sample can leak neither into
another sample nor back into the caller's jokers. -/
theorem estimator_preserves_caller_state (grid : List (List (Option Card)))
    (frozen : List (Nat × Nat)) (rows cols k : Nat) (jokers : List Joker)
    (samples : Nat) (rng : Nat → Card) :
    (∀ i, i < jokers.length →
      ((estimateExpectedScore grid frozen rows cols k jokers samples rng).2)[i]? =
        jokers[i]?) ∧
    (∀ (store : List Joker) (t i : Nat), jokers.length ≤ store.length →
      i < jokers.length →
      ((sampleOnce grid frozen rows cols k jokers.length store rng t).2.1)[i]? =
        store[i]?) ∧
    (∀ (r c t : Nat) (card : Card), r < rows → c < cols →
      frozen.contains (r, c) = true → (grid.getD r []).getD c none = some card →
      ∃ row, ((buildTempGrid grid frozen rng cols (List.range rows) t).1)[r]? = some row ∧
        row[c]? = some card) := by
  refine ⟨?_, ?_, ?_⟩
  · intro i hi
    unfold estimateExpectedScore
    rcases hloop : estimateLoop grid frozen rows cols k jokers.length rng samples jokers 0 0
      with ⟨ototal, st⟩
    have hframe : st[i]? = jokers[i]? := by
      have h0 := estimateLoop_frame grid frozen rows cols k jokers.length rng samples
        jokers 0 0 i (le_refl _) hi
      rw [hloop] at h0
      exact h0
    rcases ototal with _ | total <;> simp only [hloop] <;> exact hframe
  · intro store t i hn hi
    exact sampleOnce_frame grid frozen rows cols k jokers.length store rng t i hn hi
  · intro r c t card hr hc hfz hcell
    obtain ⟨t2, hrow⟩ := buildTempGrid_row grid frozen rng cols (List.range rows) t r r
      (by simp [hr])
    refine ⟨(buildTempRow grid frozen rng r (List.range cols) t2).1, hrow, ?_⟩
    exact buildTempRow_frozen grid frozen rng r (List.range cols) t2 c c card
      (by simp [hc]) hfz hcell

/-- Witness for C9: with one growing joker, two samples over a 2x2 grid
with one frozen ace, the caller's joker slot is unchanged, a single
sample started on the caller's store leaves slot 0 unchanged, and the
frozen cell's card is copied into the temporary grid. -/
theorem estimator_preserves_caller_state_witness :
    ((estimateExpectedScore [[some ⟨"A", "H"⟩, none], [none, none]] [(0, 0)] 2 2 3
        [⟨"t_g2", "Common", 5, "growing", "always", "", "", "+m", .num 1, .bool false, some "line", 0⟩]
        2 (fun _ => ⟨"K", "S"⟩)).2)[0]? =
      some ⟨"t_g2", "Common", 5, "growing", "always", "", "", "+m", .num 1, .bool false, some "line", 0⟩ ∧
    (∃ row, ((buildTempGrid [[some ⟨"A", "H"⟩, none], [none, none]] [(0, 0)]
        (fun _ => ⟨"K", "S"⟩) 2 (List.range 2) 0).1)[0]? = some row ∧
      row[0]? = some ⟨"A", "H"⟩) := by
  have h := estimator_preserves_caller_state [[some ⟨"A", "H"⟩, none], [none, none]] [(0, 0)]
    2 2 3
    [⟨"t_g2", "Common", 5, "growing", "always", "", "", "+m", .num 1, .bool false, some "line", 0⟩]
    2 (fun _ => ⟨"K", "S"⟩)
  constructor
  · have h1 := h.1 0 (by decide)
    rw [h1]
    rfl
  · exact h.2.2 0 0 0 ⟨"A", "H"⟩ (by decide) (by decide) (by decide) (by decide)

end TwinHands
